import Mathlib

/-!
Verification development for the deferred-execution tracer in
src/syft/workers/plan.py (class Plan and its helpers).

The embedding is shallow: Python values occurring inside a recorded trace
are modelled by the inductive type PyVal (ints, strings, byte strings,
lists, tuples and abstract leaves), the mutable fields of the Plan object are a
Lean structure PlanState, and each method becomes a pure state-passing
function translated line by line from the source.
-/

namespace PlanSpec

/-- A Python value as it can occur inside a recorded trace entry:
an int (tensor/object id), a str (worker id), a byte string
(encoded worker id), a list, a tuple, or an abstract leaf standing for
any other Python object that the rewriting code leaves untouched. -/
inductive PyVal where
  | int (n : Int)
  | str (s : String)
  | bytes (s : String)
  | list (xs : List PyVal)
  | tuple (xs : List PyVal)
  | other (tag : Nat)

namespace PyVal

mutual

def beqVal : PyVal → PyVal → Bool
  | .int a, .int b => a == b
  | .str a, .str b => a == b
  | .bytes a, .bytes b => a == b
  | .list a, .list b => beqList a b
  | .tuple a, .tuple b => beqList a b
  | .other a, .other b => a == b
  | _, _ => false

def beqList : List PyVal → List PyVal → Bool
  | [], [] => true
  | a :: as, b :: bs => beqVal a b && beqList as bs
  | _, _ => false

end

mutual

theorem beqVal_iff : ∀ a b : PyVal, beqVal a b = true ↔ a = b
  | .int a, .int b => by simp [beqVal]
  | .int _, .str _ => by simp [beqVal]
  | .int _, .bytes _ => by simp [beqVal]
  | .int _, .list _ => by simp [beqVal]
  | .int _, .tuple _ => by simp [beqVal]
  | .int _, .other _ => by simp [beqVal]
  | .str _, .int _ => by simp [beqVal]
  | .str a, .str b => by simp [beqVal]
  | .str _, .bytes _ => by simp [beqVal]
  | .str _, .list _ => by simp [beqVal]
  | .str _, .tuple _ => by simp [beqVal]
  | .str _, .other _ => by simp [beqVal]
  | .bytes _, .int _ => by simp [beqVal]
  | .bytes _, .str _ => by simp [beqVal]
  | .bytes a, .bytes b => by simp [beqVal]
  | .bytes _, .list _ => by simp [beqVal]
  | .bytes _, .tuple _ => by simp [beqVal]
  | .bytes _, .other _ => by simp [beqVal]
  | .list _, .int _ => by simp [beqVal]
  | .list _, .str _ => by simp [beqVal]
  | .list _, .bytes _ => by simp [beqVal]
  | .list a, .list b => by simp [beqVal, beqList_iff a b]
  | .list _, .tuple _ => by simp [beqVal]
  | .list _, .other _ => by simp [beqVal]
  | .tuple _, .int _ => by simp [beqVal]
  | .tuple _, .str _ => by simp [beqVal]
  | .tuple _, .bytes _ => by simp [beqVal]
  | .tuple _, .list _ => by simp [beqVal]
  | .tuple a, .tuple b => by simp [beqVal, beqList_iff a b]
  | .tuple _, .other _ => by simp [beqVal]
  | .other _, .int _ => by simp [beqVal]
  | .other _, .str _ => by simp [beqVal]
  | .other _, .bytes _ => by simp [beqVal]
  | .other _, .list _ => by simp [beqVal]
  | .other _, .tuple _ => by simp [beqVal]
  | .other a, .other b => by simp [beqVal]

theorem beqList_iff : ∀ a b : List PyVal, beqList a b = true ↔ a = b
  | [], [] => by simp [beqList]
  | [], _ :: _ => by simp [beqList]
  | _ :: _, [] => by simp [beqList]
  | a :: as, b :: bs => by
    simp [beqList, beqVal_iff a b, beqList_iff as bs]

end

instance : DecidableEq PyVal := fun a b =>
  decidable_of_iff (beqVal a b = true) (beqVal_iff a b)

end PyVal

/-- Python isinstance check of one value against the runtime type of
another, restricted to the types that can occur in a trace: two values
have the same type exactly when they use the same PyVal constructor
(int vs str vs bytes vs list vs tuple vs abstract object). -/
def sameType : PyVal → PyVal → Bool
  | .int _, .int _ => true
  | .str _, .str _ => true
  | .bytes _, .bytes _ => true
  | .list _, .list _ => true
  | .tuple _, .tuple _ => true
  | .other _, .other _ => true
  | _, _ => false

/-- True when the value is a Python sequence (list or tuple). -/
def isSeq : PyVal → Bool
  | .list _ => true
  | .tuple _ => true
  | _ => false

mutual

/-- True when no tuple occurs anywhere inside the value. -/
def tupleFree : PyVal → Bool
  | .tuple _ => false
  | .list xs => tupleFreeL xs
  | _ => true

/-- True when no tuple occurs anywhere inside any element of the list. -/
def tupleFreeL : List PyVal → Bool
  | [] => true
  | x :: xs => tupleFree x && tupleFreeL xs

end

mutual

/-- One item of the loop body of Plan._replace_message_ids
(src/syft/workers/plan.py lines 211-230): an int equal to change_id
becomes to_id; otherwise a value of the same Python type as from_worker
and equal to it becomes to_worker; otherwise a list or tuple is
rewritten recursively (and rebuilt as a list); anything else passes
through unchanged. -/
def replaceItem (c t : Int) (fw tw : PyVal) (item : PyVal) : PyVal :=
  if (match item with | .int n => n == c | _ => false) then .int t
  else if sameType item fw && item == fw then tw
  else match item with
    | .list xs => .list (_replace_message_ids c t fw tw xs)
    | .tuple xs => .list (_replace_message_ids c t fw tw xs)
    | x => x

/-- Plan._replace_message_ids (src/syft/workers/plan.py lines 207-232):
iterates over obj, applying the item transformation to each element, and
collects the results into a fresh Python list. -/
def _replace_message_ids (c t : Int) (fw tw : PyVal) : List PyVal → List PyVal
  | [] => []
  | x :: xs => replaceItem c t fw tw x :: _replace_message_ids c t fw tw xs

end

/-- Application of Plan._replace_message_ids to a single trace entry, as
done per message in Plan.replace_ids (line 185): the entry is a tuple
(or list), Python iterates over it and returns the rewritten items as a
list. A non-sequence entry would raise TypeError in Python; entries are
always tuples at the call sites, so the catch-all branch is unreachable
and returns the entry unchanged. -/
def replaceEntry (msg : PyVal) (c t : Int) (fw tw : PyVal) : PyVal :=
  match msg with
  | .list xs => .list (_replace_message_ids c t fw tw xs)
  | .tuple xs => .list (_replace_message_ids c t fw tw xs)
  | m => m

/-- Plan.replace_ids (src/syft/workers/plan.py lines 174-192): for every
pair (from_ids i, to_ids i) and for every message of the plan, the
message is rewritten by _replace_message_ids with that pair, and in the
same call with from_worker = the own id of the plan (an int issued by the id
provider) and to_worker = the worker id of the owner (a string). -/
def replace_ids (rp : List PyVal) (from_ids to_ids : List Int)
    (selfId : Int) (ownerId : String) : List PyVal :=
  (from_ids.zip to_ids).foldl
    (fun rp p => rp.map (fun msg => replaceEntry msg p.1 p.2 (.int selfId) (.str ownerId)))
    rp

/-- Plan.replace_worker_ids (src/syft/workers/plan.py lines 194-205):
applies _replace_message_ids to the whole readable plan twice, first for
the pair of plain worker-id strings, then for the pair of their
byte-encoded forms; change_id and to_id are both -1 in each pass. -/
def replace_worker_ids (rp : List PyVal) (from_worker_id to_worker_id : String) :
    List PyVal :=
  let rp1 := _replace_message_ids (-1) (-1) (.str from_worker_id) (.str to_worker_id) rp
  _replace_message_ids (-1) (-1) (.bytes from_worker_id) (.bytes to_worker_id) rp1

mutual

/-- Modelled from the spec (section 4.2) as the comparison point for the
rewriter claims: every element equal to from_id, matched by exact type
and value, is replaced by to_id; sequences are rewritten recursively
(the code rebuilds them as lists, see claim C9); non-matching scalar
elements pass through unchanged. -/
def rewrite_ids_spec (c t : Int) : PyVal → PyVal
  | .int n => if n = c then .int t else .int n
  | .str s => .str s
  | .bytes s => .bytes s
  | .list xs => .list (rewrite_ids_specL c t xs)
  | .tuple xs => .list (rewrite_ids_specL c t xs)
  | .other g => .other g

/-- Elementwise lifting of rewrite_ids_spec. -/
def rewrite_ids_specL (c t : Int) : List PyVal → List PyVal
  | [] => []
  | x :: xs => rewrite_ids_spec c t x :: rewrite_ids_specL c t xs

end

mutual

/-- Modelled from the spec (section 4.2) as the comparison point for the
worker-id rewriter: the worker identifier is replaced both in its native
string form and in its byte-encoded form; sequences are rewritten
recursively (rebuilt as lists); everything else passes through. -/
def worker_rewrite_spec (fw tw : String) : PyVal → PyVal
  | .int n => .int n
  | .str s => .str (if s = fw then tw else s)
  | .bytes s => .bytes (if s = fw then tw else s)
  | .list xs => .list (worker_rewrite_specL fw tw xs)
  | .tuple xs => .list (worker_rewrite_specL fw tw xs)
  | .other g => .other g

/-- Elementwise lifting of worker_rewrite_spec. -/
def worker_rewrite_specL (fw tw : String) : List PyVal → List PyVal
  | [] => []
  | x :: xs => worker_rewrite_spec fw tw x :: worker_rewrite_specL fw tw xs

end

theorem rewrite_ids_specL_eq_map (c t : Int) (xs : List PyVal) :
    rewrite_ids_specL c t xs = xs.map (rewrite_ids_spec c t) := by
  induction xs with
  | nil => rfl
  | cons x xs ih => simp [rewrite_ids_specL, ih]

theorem worker_rewrite_specL_eq_map (fw tw : String) (xs : List PyVal) :
    worker_rewrite_specL fw tw xs = xs.map (worker_rewrite_spec fw tw) := by
  induction xs with
  | nil => rfl
  | cons x xs ih => simp [worker_rewrite_specL, ih]

/-- An argument passed to a Plan invocation: its object id, whether it is
a torch.Tensor, and, when its child is a PointerTensor, the id of the
remote location it points to. -/
structure Arg where
  id : Int
  isTensor : Bool
  ptrLoc : Option String
deriving DecidableEq

/-- The user blueprint (plan_blueprint), abstracted as the trace entries
its commands append to the plan worker via _recv_msg when run against
the placeholder arguments whose ids are given, together with the
id_at_location of the result pointer it returns. -/
structure Blueprint where
  traceOf : List Int → List PyVal
  resultOf : List Int → Int

/-- The mutable fields of a Plan object (src/syft/workers/plan.py
lines 80-100). Plan ids are ints issued by the id provider; worker ids
are strings. The field plan (the raw binary messages) always mirrors
readable_plan and is not modelled separately; ptr_plans maps a location
id to the handle cached for it, modelled as the rewritten trace that was
transmitted by _send. -/
structure PlanState where
  id : Int
  owner : String
  readable_plan : List PyVal
  arg_ids : List Int
  result_ids : List Int
  owner_when_built : Option String
  locations : List String
  ptr_plans : List (String × List PyVal)
  bound_self : Option Arg
deriving DecidableEq

/-- The ids recorded in arg_ids during build: only tensor arguments are
sent to the plan worker, and arg.send keeps the tensor id as the
id_at_location of the pointer. -/
def tensorIds (args : List Arg) : List Int :=
  (args.filter (fun a => a.isTensor)).map (fun a => a.id)

/-- Plan.find_location (src/syft/workers/plan.py lines 159-167): the
location of the first tensor argument whose child is a PointerTensor,
else the local worker. -/
def find_location (args : List Arg) (localId : String) : String :=
  match args.find? (fun a => a.isTensor && a.ptrLoc.isSome) with
  | some a => a.ptrLoc.getD localId
  | none => localId

/-- Plan.build_plan (src/syft/workers/plan.py lines 125-157): resets
arg_ids to the ids of the tensor arguments, runs the blueprint (whose
commands are appended to readable_plan by _recv_msg; the OBJ messages
produced by sending the arguments are not recorded), finds the execution
worker from the arguments, rewrites that worker id to the owner id in
the whole readable plan, stores the result pointer id as the single
result id, and records the owner that built the plan. Note that
readable_plan is appended to, never cleared. -/
def build_plan (bp : Blueprint) (st : PlanState) (args : List Arg)
    (localId : String) : PlanState :=
  let argIds := tensorIds args
  let rp1 := st.readable_plan ++ bp.traceOf argIds
  let w := find_location args localId
  let rp2 := replace_worker_ids rp1 w st.owner
  { st with
      readable_plan := rp2
      arg_ids := argIds
      result_ids := [bp.resultOf argIds]
      owner_when_built := some st.owner }

/-- Plan._update_args (src/syft/workers/plan.py lines 248-261): rewrites
the stored arg_ids to the ids of the current arguments (the ids of all
arguments, tensors or not) and the stored result_ids to the given ones,
updating the stored lists. -/
def _update_args (st : PlanState) (args : List Arg) (result_ids : List Int) :
    PlanState :=
  let argIds := args.map (fun a => a.id)
  let rp1 := replace_ids st.readable_plan st.arg_ids argIds st.id st.owner
  let rp2 := replace_ids rp1 st.result_ids result_ids st.id st.owner
  { st with readable_plan := rp2, arg_ids := argIds, result_ids := result_ids }

/-- A PointerTensor as produced by Plan._get_plan_output: a reference to
the object stored under id_at_location at the given worker. The local
execution path calls response.get, which materializes the value stored
at that id; the descriptor identifies it. -/
structure PtrT where
  location : String
  id_at_location : Int
deriving DecidableEq

/-- What execute_plan and its helpers can return. -/
inductive PlanOutput where
  | one (p : PtrT)
  | many (ps : List PtrT)
deriving DecidableEq

/-- Plan._get_plan_output (src/syft/workers/plan.py lines 268-279):
builds one response per result id, in order; if exactly one response was
built it is returned bare, otherwise the whole list is returned. -/
def _get_plan_output (ownerId : String) (result_ids : List Int) : PlanOutput :=
  match result_ids.map (fun rid => PtrT.mk ownerId rid) with
  | [r] => .one r
  | rs => .many rs

/-- Plan._execute_plan_locally (src/syft/workers/plan.py lines 281-287):
re-runs build_plan when the current owner differs from the owner
recorded at build time, then rewrites arg and result ids, replays the
trace against the owner (the replay does not change the Plan fields),
and fetches the outputs. -/
def _execute_plan_locally (bp : Blueprint) (st : PlanState) (args : List Arg)
    (result_ids : List Int) (localId : String) : PlanState × PlanOutput :=
  let st1 := if st.owner_when_built ≠ some st.owner then build_plan bp st args localId else st
  let st2 := _update_args st1 args result_ids
  (st2, _get_plan_output st2.owner result_ids)

/-- Plan._send (src/syft/workers/plan.py lines 355-372): deep-copies the
readable plan, rewrites the owner id and every flagged location id to
the destination id (sequentially, over the whole plan), transmits the
Plan object in that rewritten form, takes a detached copy of it as the
returned pointer, and restores the readable plan to the saved copy. The
second component is the rewritten trace as transmitted, which also
serves as the returned handle. -/
def _send (st : PlanState) (locationId : String) : PlanState × List PyVal :=
  let readable_plan_original := st.readable_plan
  let rewritten := (st.owner :: st.locations).foldl
    (fun rp worker_id => replace_worker_ids rp worker_id locationId) st.readable_plan
  ({ st with readable_plan := readable_plan_original }, rewritten)

/-- Plan.send (src/syft/workers/plan.py lines 343-353): appends the
resolved destination ids to locations and removes duplicates; nothing is
transmitted and no other field is touched. -/
def send (st : PlanState) (dests : List String) : PlanState :=
  { st with locations := (st.locations ++ dests).dedup }

/-- Plan.get (src/syft/workers/plan.py lines 374-384): clears locations
and ptr_plans without contacting any remote worker. -/
def get (st : PlanState) : PlanState :=
  { st with locations := [], ptr_plans := [] }

/-- What a call to execute_plan returns: a pointer to a remote plan
execution (carrying the cached handle used), a local output, or the
serialized None acknowledgment. -/
inductive ExecResult where
  | remote (handle : List PyVal)
  | localOut (o : PlanOutput)
  | ack
deriving DecidableEq

/-- Plan.execute_plan (src/syft/workers/plan.py lines 289-325). Returns
the updated state, the result, and the list of destinations to which the
Plan itself was transmitted by _send during the call (send_trace
transmissions; the request_execute_plan command message is not a plan
transmission). First the plan is built if the readable plan is empty;
then, if any location is flagged, the destination is resolved with
find_location, the plan is sent there exactly when no handle is cached
for it yet, and a remote execution is requested; otherwise the plan is
executed locally when the owner is the local worker, or replayed with
only an acknowledgment returned when it is not. -/
def execute_plan (bp : Blueprint) (st : PlanState) (args : List Arg)
    (result_ids : List Int) (localId : String) :
    PlanState × ExecResult × List String :=
  let first_run := st.readable_plan = []
  let st1 := if first_run then build_plan bp st args localId else st
  if st1.locations ≠ [] then
    let w := find_location args localId
    match st1.ptr_plans.lookup w with
    | some h => (st1, .remote h, [])
    | none =>
      let sent := _send st1 w
      let st3 := { sent.1 with ptr_plans := sent.1.ptr_plans ++ [(w, sent.2)] }
      (st3, .remote sent.2, [w])
  else if st1.owner = localId then
    let r := _execute_plan_locally bp st1 args result_ids localId
    (r.1, .localOut r.2, [])
  else
    let st2 := _update_args st1 args result_ids
    (st2, .ack, [])

/-- Plan.__call__ (src/syft/workers/plan.py lines 234-246): asserts that
no keyword arguments were passed (raising before anything else runs),
draws one fresh result id, prepends the bound receiver for method plans,
and delegates to execute_plan. -/
def plan_call (bp : Blueprint) (st : PlanState) (args : List Arg)
    (kwargs : List (String × Int)) (localId : String) (freshId : Int) :
    Except String (PlanState × ExecResult × List String) :=
  if kwargs.length ≠ 0 then .error "kwargs not supported for plan"
  else
    let result_ids := [freshId]
    let args := match st.bound_self with
      | some s => s :: args
      | none => args
    .ok (execute_plan bp st args result_ids localId)

/-! ### Lemmas about the identifier rewriter -/

theorem nonSeq_tupleFree {v : PyVal} (h : isSeq v = false) : tupleFree v = true := by
  cases v <;> first | rfl | simp [isSeq] at h

theorem sameType_list_nonSeq (xs : List PyVal) {fw : PyVal} (h : isSeq fw = false) :
    sameType (.list xs) fw = false := by
  cases fw <;> first | rfl | simp [isSeq] at h

theorem sameType_tuple_nonSeq (xs : List PyVal) {fw : PyVal} (h : isSeq fw = false) :
    sameType (.tuple xs) fw = false := by
  cases fw <;> first | rfl | simp [isSeq] at h

mutual

theorem replaceItem_neutral (c t : Int) (s : String) :
    ∀ item : PyVal, replaceItem c t (.str s) (.str s) item = rewrite_ids_spec c t item
  | .int n => by by_cases h : n = c <;> simp [replaceItem, rewrite_ids_spec, sameType, h]
  | .str x => by by_cases h : x = s <;> simp [replaceItem, rewrite_ids_spec, sameType, h]
  | .bytes x => by simp [replaceItem, rewrite_ids_spec, sameType]
  | .other g => by simp [replaceItem, rewrite_ids_spec, sameType]
  | .list xs => by
    simp [replaceItem, rewrite_ids_spec, sameType, rmi_neutral c t s xs]
  | .tuple xs => by
    simp [replaceItem, rewrite_ids_spec, sameType, rmi_neutral c t s xs]

theorem rmi_neutral (c t : Int) (s : String) :
    ∀ xs : List PyVal,
      _replace_message_ids c t (.str s) (.str s) xs = rewrite_ids_specL c t xs
  | [] => rfl
  | x :: xs => by
    simp [_replace_message_ids, rewrite_ids_specL, replaceItem_neutral c t s x,
      rmi_neutral c t s xs]

end

mutual

theorem spec_id_tupleFree (v : Int) :
    ∀ x : PyVal, tupleFree x = true → rewrite_ids_spec v v x = x
  | .int n, _ => by by_cases h : n = v <;> simp [rewrite_ids_spec, h]
  | .str x, _ => rfl
  | .bytes x, _ => rfl
  | .other g, _ => rfl
  | .list xs, h => by
    simp only [rewrite_ids_spec, PyVal.list.injEq]
    exact specL_id_tupleFree v xs (by simpa [tupleFree] using h)
  | .tuple xs, h => by simp [tupleFree] at h

theorem specL_id_tupleFree (v : Int) :
    ∀ xs : List PyVal, tupleFreeL xs = true → rewrite_ids_specL v v xs = xs
  | [], _ => rfl
  | x :: xs, h => by
    simp only [tupleFreeL, Bool.and_eq_true] at h
    simp [rewrite_ids_specL, spec_id_tupleFree v x h.1, specL_id_tupleFree v xs h.2]

end

mutual

theorem worker_item_twopass (fw tw : String) :
    ∀ item : PyVal,
      replaceItem (-1) (-1) (.bytes fw) (.bytes tw)
          (replaceItem (-1) (-1) (.str fw) (.str tw) item)
        = worker_rewrite_spec fw tw item
  | .int n => by
    by_cases h : n = (-1 : Int) <;>
      simp [replaceItem, sameType, worker_rewrite_spec, h]
  | .str x => by
    by_cases h : x = fw <;> simp [replaceItem, sameType, worker_rewrite_spec, h]
  | .bytes x => by
    by_cases h : x = fw <;> simp [replaceItem, sameType, worker_rewrite_spec, h]
  | .other g => by simp [replaceItem, sameType, worker_rewrite_spec]
  | .list xs => by
    simp [replaceItem, sameType, worker_rewrite_spec, worker_list_twopass fw tw xs]
  | .tuple xs => by
    simp [replaceItem, sameType, worker_rewrite_spec, worker_list_twopass fw tw xs]

theorem worker_list_twopass (fw tw : String) :
    ∀ xs : List PyVal,
      _replace_message_ids (-1) (-1) (.bytes fw) (.bytes tw)
          (_replace_message_ids (-1) (-1) (.str fw) (.str tw) xs)
        = worker_rewrite_specL fw tw xs
  | [] => rfl
  | x :: xs => by
    simp [_replace_message_ids, worker_rewrite_specL, worker_item_twopass fw tw x,
      worker_list_twopass fw tw xs]

end

theorem replace_worker_ids_eq_spec (rp : List PyVal) (fw tw : String) :
    replace_worker_ids rp fw tw = rp.map (worker_rewrite_spec fw tw) := by
  rw [replace_worker_ids, worker_list_twopass fw tw rp, worker_rewrite_specL_eq_map]

mutual

theorem replaceItem_tupleFree (c t : Int) {fw tw : PyVal}
    (hfw : isSeq fw = false) (htw : isSeq tw = false) :
    ∀ item : PyVal, tupleFree (replaceItem c t fw tw item) = true
  | .int n => by
    by_cases h : n = c
    · simp [replaceItem, h, tupleFree]
    · cases hb : (sameType (.int n) fw && ((PyVal.int n) == fw)) with
      | false => simp [replaceItem, h, hb, tupleFree]
      | true => simp [replaceItem, h, hb]; exact nonSeq_tupleFree htw
  | .str x => by
    cases hb : (sameType (.str x) fw && ((PyVal.str x) == fw)) with
    | false => simp [replaceItem, hb, tupleFree]
    | true => simp [replaceItem, hb]; exact nonSeq_tupleFree htw
  | .bytes x => by
    cases hb : (sameType (.bytes x) fw && ((PyVal.bytes x) == fw)) with
    | false => simp [replaceItem, hb, tupleFree]
    | true => simp [replaceItem, hb]; exact nonSeq_tupleFree htw
  | .other g => by
    cases hb : (sameType (.other g) fw && ((PyVal.other g) == fw)) with
    | false => simp [replaceItem, hb, tupleFree]
    | true => simp [replaceItem, hb]; exact nonSeq_tupleFree htw
  | .list xs => by
    simp [replaceItem, sameType_list_nonSeq xs hfw, tupleFree]
    exact rmi_tupleFree c t hfw htw xs
  | .tuple xs => by
    simp [replaceItem, sameType_tuple_nonSeq xs hfw, tupleFree]
    exact rmi_tupleFree c t hfw htw xs

theorem rmi_tupleFree (c t : Int) {fw tw : PyVal}
    (hfw : isSeq fw = false) (htw : isSeq tw = false) :
    ∀ xs : List PyVal, tupleFreeL (_replace_message_ids c t fw tw xs) = true
  | [] => rfl
  | x :: xs => by
    simp [_replace_message_ids, tupleFreeL, replaceItem_tupleFree c t hfw htw x,
      rmi_tupleFree c t hfw htw xs]

end

theorem replace_ids_eq_map (rp : List PyVal) (f t : List Int) (s : Int) (o : String) :
    replace_ids rp f t s o
      = rp.map (fun msg =>
          (f.zip t).foldl (fun m p => replaceEntry m p.1 p.2 (.int s) (.str o)) msg) := by
  unfold replace_ids
  generalize (f.zip t) = pairs
  induction pairs generalizing rp with
  | nil => simp
  | cons p ps ih =>
    simp only [List.foldl_cons]
    rw [ih]
    simp [List.map_map, Function.comp]

theorem rmi_length (c t : Int) (fw tw : PyVal) :
    ∀ xs : List PyVal, (_replace_message_ids c t fw tw xs).length = xs.length
  | [] => rfl
  | x :: xs => by simp [_replace_message_ids, rmi_length c t fw tw xs]

theorem replace_worker_ids_length (rp : List PyVal) (fw tw : String) :
    (replace_worker_ids rp fw tw).length = rp.length := by
  rw [replace_worker_ids_eq_spec]
  simp

theorem replace_ids_length (rp : List PyVal) (f t : List Int) (s : Int) (o : String) :
    (replace_ids rp f t s o).length = rp.length := by
  rw [replace_ids_eq_map]
  simp

theorem send_trace_rewrite (rp : List PyVal) (ws : List String) (loc : String) :
    ws.foldl (fun rp w => replace_worker_ids rp w loc) rp
      = rp.map (fun e => ws.foldl (fun e w => worker_rewrite_spec w loc e) e) := by
  induction ws generalizing rp with
  | nil => simp
  | cons w ws ih =>
    simp only [List.foldl_cons]
    rw [replace_worker_ids_eq_spec, ih]
    simp [List.map_map, Function.comp]

theorem lookup_append_self {β : Type _} (l : List (String × β)) (k : String) (v : β)
    (h : l.lookup k = none) : (l ++ [(k, v)]).lookup k = some v := by
  induction l with
  | nil => simp [List.lookup]
  | cons p tl ih =>
    obtain ⟨k0, v0⟩ := p
    by_cases hk : k = k0
    · subst hk
      simp [List.lookup] at h
    · have hb : (k == k0) = false := by simp [hk]
      simp only [List.cons_append, List.lookup] at h ⊢
      rw [hb] at h ⊢
      exact ih h

/-! ### Claims about the identifier rewriter -/

/-- Claim C3: for every nested sequence structure, the id rewriting (the
pure substitution of Plan._replace_message_ids, with the worker pair
neutralized as at the aliased call sites) replaces every element equal
to from_id, matched by exact type and value, with to_id, rewrites nested
sequences recursively, and passes every non-matching scalar element
through unchanged; in particular it maps the nested list 1-2, 1-3 with
from 1 to 9 to the nested list 9-2, 9-3, and leaves the list 1, 2
unchanged when asked to replace 5. -/
theorem claim_C3 :
    (∀ (xs : List PyVal) (from_id to_id : Int) (s : String),
        _replace_message_ids from_id to_id (.str s) (.str s) xs
          = xs.map (rewrite_ids_spec from_id to_id)) ∧
    _replace_message_ids 1 9 (.str "a") (.str "a")
        [.list [.int 1, .int 2], .list [.int 1, .int 3]]
      = [.list [.int 9, .int 2], .list [.int 9, .int 3]] ∧
    _replace_message_ids 5 9 (.str "a") (.str "a") [.int 1, .int 2]
      = [.int 1, .int 2] := by
  refine ⟨fun xs c t s => ?_, by decide, by decide⟩
  rw [rmi_neutral, rewrite_ids_specL_eq_map]

/-- Claim C4, counterexample: rewriting with from_id = to_id is not a
no-op on every structure, because a nested tuple is returned as a list:
on the singleton trace holding the tuple of 1 and 2, the rewrite of 1 to
1 returns a different structure. -/
theorem claim_C4_counterexample :
    _replace_message_ids 1 1 (.str "a") (.str "a") [.tuple [.int 1, .int 2]]
      ≠ [.tuple [.int 1, .int 2]] := by decide

/-- Claim C4 as amended: rewriting with from_id = to_id returns the
structure unchanged (no error, no duplicated entries) for every
structure that contains no tuple; a structure containing a tuple is
returned with the tuple rebuilt as a list, its elements unchanged. -/
theorem claim_C4_amended (xs : List PyVal) (v : Int) (s : String)
    (h : tupleFreeL xs = true) :
    _replace_message_ids v v (.str s) (.str s) xs = xs := by
  rw [rmi_neutral]
  exact specL_id_tupleFree v xs h

/-- Witness for the amended claim C4 at a concrete tuple-free input. -/
theorem claim_C4_amended_witness :
    tupleFreeL [PyVal.list [.int 1, .int 2], .str "w"] = true ∧
    _replace_message_ids 1 1 (.str "a") (.str "a")
        [PyVal.list [.int 1, .int 2], .str "w"]
      = [PyVal.list [.int 1, .int 2], .str "w"] :=
  ⟨by decide, claim_C4_amended [PyVal.list [.int 1, .int 2], .str "w"] 1 "a" (by decide)⟩

/-- Claim C5: replace_worker_ids substitutes the worker identifier both
in its native string form and in its byte-encoded form; on a trace entry
holding both the plain string w1 and its encoded bytes, rewriting w1 to
w2 replaces both occurrences. -/
theorem claim_C5 :
    (∀ (rp : List PyVal) (fw tw : String),
        replace_worker_ids rp fw tw = rp.map (worker_rewrite_spec fw tw)) ∧
    replace_worker_ids [.tuple [.str "w1", .bytes "w1", .int 3]] "w1" "w2"
      = [.list [.str "w2", .bytes "w2", .int 3]] := by
  exact ⟨fun rp fw tw => replace_worker_ids_eq_spec rp fw tw, by decide⟩

/-- Claim C9: the id-rewriting recursion is not structure-type
preserving: with the worker substitution arguments at their actual
scalar instantiations, the result of _replace_message_ids contains no
tuple at any depth, so a trace entry containing a tuple comes back with
the tuple turned into a list even when no identifier matches. -/
theorem claim_C9 :
    (∀ (c t : Int) (fw tw : PyVal) (xs : List PyVal),
        isSeq fw = false → isSeq tw = false →
        tupleFreeL (_replace_message_ids c t fw tw xs) = true) ∧
    _replace_message_ids 5 9 (.str "a") (.str "a") [.tuple [.int 1, .int 2]]
      = [.list [.int 1, .int 2]] ∧
    PyVal.tuple [.int 1, .int 2] ≠ PyVal.list [.int 1, .int 2] := by
  refine ⟨fun c t fw tw xs hfw htw => rmi_tupleFree c t hfw htw xs, by decide, by decide⟩

/-- Witness for claim C9 at concrete scalar worker arguments. -/
theorem claim_C9_witness :
    isSeq (PyVal.str "a") = false ∧ isSeq (PyVal.str "b") = false ∧
    tupleFreeL (_replace_message_ids 0 0 (.str "a") (.str "b") [.tuple [.int 1]])
      = true :=
  ⟨rfl, rfl, claim_C9.1 0 0 (.str "a") (.str "b") [.tuple [.int 1]] rfl rfl⟩

/-- Claim C10: replace_ids performs, for every pair and every trace
entry, the requested int substitution and additionally a worker-id
substitution replacing the own id of the Plan (an int) with the worker
id of the owner (a string); the extra substitution fires even when the
requested pairs carry no worker reference. -/
theorem claim_C10 :
    (∀ (rp : List PyVal) (from_ids to_ids : List Int) (selfId : Int) (ownerId : String),
        replace_ids rp from_ids to_ids selfId ownerId
          = rp.map (fun msg =>
              (from_ids.zip to_ids).foldl
                (fun m p => replaceEntry m p.1 p.2 (.int selfId) (.str ownerId)) msg)) ∧
    (∀ (selfId : Int) (ownerId : String) (a b : Int),
        a ≠ selfId →
        replace_ids [.tuple [.int selfId]] [a] [b] selfId ownerId
          = [.list [.str ownerId]]) := by
  constructor
  · exact fun rp f t s o => replace_ids_eq_map rp f t s o
  · intro s o a b h
    have h2 : s ≠ a := Ne.symm h
    simp [replace_ids, replaceEntry, _replace_message_ids, replaceItem, sameType, h2]

/-- Witness for claim C10: a pair of plain tensor ids still rewrites the
plan id 7 to the owner id. -/
theorem claim_C10_witness :
    replace_ids [.tuple [.int 7]] [2] [3] 7 "me" = [.list [.str "me"]] :=
  claim_C10.2 7 "me" 2 3 (by decide)

/-! ### Lemmas about the Plan lifecycle -/

theorem build_plan_locations (bp : Blueprint) (st : PlanState) (args : List Arg)
    (l : String) : (build_plan bp st args l).locations = st.locations := rfl

theorem build_plan_ptr_plans (bp : Blueprint) (st : PlanState) (args : List Arg)
    (l : String) : (build_plan bp st args l).ptr_plans = st.ptr_plans := rfl

theorem _send_fst (st : PlanState) (loc : String) : (_send st loc).1 = st := rfl

/-- The state and transmitted payload after the first remote execute of
a plan with no cached handle for the resolved destination: the plan is
possibly built, sent once (readable plan restored by _send), and the
handle is cached under the destination id. -/
def after_first_send (bp : Blueprint) (st : PlanState) (args : List Arg)
    (localId : String) : PlanState × List PyVal :=
  let st1 := if st.readable_plan = [] then build_plan bp st args localId else st
  let w := find_location args localId
  let payload := (_send st1 w).2
  ({ st1 with ptr_plans := st.ptr_plans ++ [(w, payload)] }, payload)

theorem after_first_send_locations (bp : Blueprint) (st : PlanState) (args : List Arg)
    (localId : String) :
    (after_first_send bp st args localId).1.locations = st.locations := by
  unfold after_first_send
  by_cases hfr : st.readable_plan = [] <;> simp [hfr, build_plan_locations]

theorem after_first_send_lookup (bp : Blueprint) (st : PlanState) (args : List Arg)
    (localId : String)
    (hnone : st.ptr_plans.lookup (find_location args localId) = none) :
    (after_first_send bp st args localId).1.ptr_plans.lookup (find_location args localId)
      = some (after_first_send bp st args localId).2 :=
  lookup_append_self _ _ _ hnone

theorem execute_plan_uncached (bp : Blueprint) (st : PlanState) (args : List Arg)
    (rids : List Int) (localId : String)
    (hloc : st.locations ≠ [])
    (hnone : st.ptr_plans.lookup (find_location args localId) = none) :
    execute_plan bp st args rids localId
      = ((after_first_send bp st args localId).1,
         .remote (after_first_send bp st args localId).2,
         [find_location args localId]) := by
  unfold execute_plan after_first_send
  by_cases hfr : st.readable_plan = []
  · simp only [if_pos hfr]
    rw [if_pos (show (build_plan bp st args localId).locations ≠ [] from by
      rw [build_plan_locations]; exact hloc)]
    rw [build_plan_ptr_plans, hnone]
    rfl
  · simp only [if_neg hfr]
    rw [if_pos hloc, hnone]
    rfl

theorem execute_plan_cached (bp : Blueprint) (st : PlanState) (args : List Arg)
    (rids : List Int) (localId : String) (hdl : List PyVal)
    (hloc : st.locations ≠ [])
    (hsome : st.ptr_plans.lookup (find_location args localId) = some hdl) :
    execute_plan bp st args rids localId
      = ((if st.readable_plan = [] then build_plan bp st args localId else st),
         .remote hdl, []) := by
  unfold execute_plan
  by_cases hfr : st.readable_plan = []
  · simp only [if_pos hfr]
    rw [if_pos (show (build_plan bp st args localId).locations ≠ [] from by
      rw [build_plan_locations]; exact hloc)]
    rw [build_plan_ptr_plans, hsome]
  · simp only [if_neg hfr]
    rw [if_pos hloc, hsome]

/-! ### Claims about the Plan lifecycle -/

/-- Claim C6: Plan._send leaves the local trace unchanged: the state it
returns equals the state it was given (the readable plan is restored to
its pre-copy value), and what it transmits is the trace with every
occurrence of the current owner id and of every flagged location id
rewritten, in order, to the destination id. -/
theorem claim_C6 (st : PlanState) (loc : String) :
    (_send st loc).1 = st ∧
    (_send st loc).2
      = st.readable_plan.map
          (fun e => (st.owner :: st.locations).foldl
            (fun e w => worker_rewrite_spec w loc e) e) := by
  exact ⟨rfl, send_trace_rewrite st.readable_plan (st.owner :: st.locations) loc⟩

/-- Claim C7: when returning results for a list of result ids, the plan
output is the bare single value when there is exactly one result id, and
an ordered sequence corresponding one-to-one, in order, to the result
ids when there are two or more. -/
theorem claim_C7 (ownerId : String) (result_ids : List Int) :
    (∀ r, result_ids = [r] →
        _get_plan_output ownerId result_ids = .one ⟨ownerId, r⟩) ∧
    (2 ≤ result_ids.length →
      _get_plan_output ownerId result_ids
          = .many (result_ids.map (fun rid => PtrT.mk ownerId rid)) ∧
      ∀ i (h1 : i < result_ids.length)
          (h2 : i < (result_ids.map (fun rid => PtrT.mk ownerId rid)).length),
        (result_ids.map (fun rid => PtrT.mk ownerId rid)).get ⟨i, h2⟩
          = PtrT.mk ownerId (result_ids.get ⟨i, h1⟩)) := by
  constructor
  · rintro r rfl
    rfl
  · intro hlen
    constructor
    · cases result_ids with
      | nil => simp at hlen
      | cons a tl =>
        cases tl with
        | nil => simp at hlen
        | cons b tl2 => rfl
    · intro i h1 h2
      simp [List.get_eq_getElem, List.getElem_map]

/-- Witness for claim C7 at one and at two result ids. -/
theorem claim_C7_witness :
    _get_plan_output "me" [5] = .one ⟨"me", 5⟩ ∧
    _get_plan_output "me" [5, 6] = .many [⟨"me", 5⟩, ⟨"me", 6⟩] :=
  ⟨(claim_C7 "me" [5]).1 5 rfl, by simpa using ((claim_C7 "me" [5, 6]).2 (by decide)).1⟩

/-- Claim C8: calling a Plan with non-empty keyword arguments fails with
the contract-violation error before anything else happens: the call
returns the error and no successor state, so the trace, arg_ids,
result_ids and all other Plan state are untouched. -/
theorem claim_C8 (bp : Blueprint) (st : PlanState) (args : List Arg)
    (kwargs : List (String × Int)) (localId : String) (freshId : Int)
    (h : kwargs ≠ []) :
    plan_call bp st args kwargs localId freshId
      = .error "kwargs not supported for plan" := by
  have h0 : kwargs.length ≠ 0 := by simpa [List.length_eq_zero] using h
  simp [plan_call, h0]

/-- Witness for claim C8 at a concrete keyword argument. -/
theorem claim_C8_witness :
    plan_call ⟨fun _ => [], fun _ => 0⟩ ⟨42, "me", [], [], [], none, [], [], none⟩
        [] [("k", 1)] "me" 7
      = .error "kwargs not supported for plan" :=
  claim_C8 _ _ _ _ _ _ (by decide)

/-- Claim C2: Plan.send only records the destinations, deduplicated, in
locations and transmits nothing (every other field is unchanged); and
for a plan with a flagged destination and no cached handle for the
destination resolved from the call arguments, the first execute_plan
transmits the plan exactly once, to that destination, caches the
resulting handle, and every later execute_plan resolving to the same
destination transmits nothing and returns the cached handle. -/
theorem claim_C2 :
    (∀ (st : PlanState) (dests : List String),
        (send st dests).locations.Nodup ∧
        (∀ x, x ∈ (send st dests).locations ↔ x ∈ st.locations ∨ x ∈ dests) ∧
        (send st dests).ptr_plans = st.ptr_plans ∧
        (send st dests).readable_plan = st.readable_plan ∧
        (send st dests).owner = st.owner ∧
        (send st dests).arg_ids = st.arg_ids ∧
        (send st dests).result_ids = st.result_ids) ∧
    (∀ (bp : Blueprint) (st : PlanState) (args : List Arg) (result_ids : List Int)
        (localId : String),
        st.locations ≠ [] →
        st.ptr_plans.lookup (find_location args localId) = none →
        (execute_plan bp st args result_ids localId).2.2
            = [find_location args localId] ∧
        ((execute_plan bp st args result_ids localId).1.ptr_plans.lookup
            (find_location args localId)).isSome = true ∧
        (execute_plan bp st args result_ids localId).2.1
            = .remote (((execute_plan bp st args result_ids localId).1.ptr_plans.lookup
                (find_location args localId)).getD []) ∧
        (∀ (args2 : List Arg) (rids2 : List Int),
            find_location args2 localId = find_location args localId →
            (execute_plan bp (execute_plan bp st args result_ids localId).1
                args2 rids2 localId).2.2 = [] ∧
            (execute_plan bp (execute_plan bp st args result_ids localId).1
                args2 rids2 localId).2.1
              = .remote (((execute_plan bp st args result_ids localId).1.ptr_plans.lookup
                  (find_location args localId)).getD []))) := by
  constructor
  · intro st dests
    refine ⟨List.nodup_dedup _, fun x => ?_, rfl, rfl, rfl, rfl, rfl⟩
    simp [send, List.mem_dedup]
  · intro bp st args rids localId hloc hnone
    rw [execute_plan_uncached bp st args rids localId hloc hnone]
    have hlook := after_first_send_lookup bp st args localId hnone
    refine ⟨rfl, ?_, ?_, ?_⟩
    · simp [hlook]
    · simp [hlook]
    · intro args2 rids2 hsame
      have hloc2 : (after_first_send bp st args localId).1.locations ≠ [] := by
        rw [after_first_send_locations]; exact hloc
      have hsome2 : (after_first_send bp st args localId).1.ptr_plans.lookup
          (find_location args2 localId) = some (after_first_send bp st args localId).2 := by
        rw [hsame]; exact hlook
      rw [execute_plan_cached bp _ args2 rids2 localId _ hloc2 hsome2]
      exact ⟨rfl, by simp [hlook]⟩

/-- Witness for claim C2 at a concrete plan flagged for one location. -/
theorem claim_C2_witness :
    (PlanState.mk 42 "me" [PyVal.tuple [.int 1]] [1] [9] (some "me") ["n"] [] none).locations
        ≠ [] ∧
    ((PlanState.mk 42 "me" [PyVal.tuple [.int 1]] [1] [9] (some "me") ["n"] [] none).ptr_plans.lookup
        (find_location [Arg.mk 1 true (some "n")] "me")) = none ∧
    (execute_plan ⟨fun _ => [], fun _ => 0⟩
        (PlanState.mk 42 "me" [PyVal.tuple [.int 1]] [1] [9] (some "me") ["n"] [] none)
        [Arg.mk 1 true (some "n")] [9] "me").2.2
      = [find_location [Arg.mk 1 true (some "n")] "me"] :=
  ⟨by decide, by decide,
    ((claim_C2.2 ⟨fun _ => [], fun _ => 0⟩
        (PlanState.mk 42 "me" [PyVal.tuple [.int 1]] [1] [9] (some "me") ["n"] [] none)
        [Arg.mk 1 true (some "n")] [9] "me" (by decide) (by decide)).1)⟩

/-- The blueprint used by the concrete claim C1 scenario: it records one
trace entry mentioning the first argument id and returns result id 100. -/
def bpC1 : Blueprint :=
  ⟨fun ids => [.list [.int (ids.headD 0)]], fun _ => 100⟩

/-- A Plan already built once by owner A (one recorded entry), whose
owner has since changed to B. -/
def stC1 : PlanState :=
  ⟨42, "B", [.list [.int 1]], [1], [100], some "A", [], [], none⟩

/-- The argument list for the concrete claim C1 scenario: one local
tensor with id 1. -/
def argsC1 : List Arg := [⟨1, true, none⟩]

/-- Claim C1, counterexample: after the owner changed from A to B, the
local execute path does re-run build, but the rebuilt trace holds two
entries while the new build recorded only one: the entry recorded under
owner A is retained, so the trace does not contain only the entries of
the new build. -/
theorem claim_C1_counterexample :
    stC1.owner_when_built ≠ some stC1.owner ∧
    ((_execute_plan_locally bpC1 stC1 argsC1 [200] "B").1.readable_plan).length = 2 ∧
    (bpC1.traceOf (tensorIds argsC1)).length = 1 := by
  refine ⟨by decide, by decide, rfl⟩

/-- Claim C1 as amended: when the owner differs from the owner recorded
at build time, the next local execute call re-runs build, but the
rebuild does not discard the previously recorded trace: the new
blueprint entries are appended after the rewritten old entries, so the
trace length is the old length plus the number of new entries. -/
theorem claim_C1_amended (bp : Blueprint) (st : PlanState) (args : List Arg)
    (result_ids : List Int) (localId : String)
    (h : st.owner_when_built ≠ some st.owner) :
    ((_execute_plan_locally bp st args result_ids localId).1.readable_plan).length
      = st.readable_plan.length + (bp.traceOf (tensorIds args)).length := by
  unfold _execute_plan_locally
  rw [if_pos h]
  simp [_update_args, build_plan, replace_ids_length, replace_worker_ids_length]

/-- Witness for the amended claim C1 at the concrete rebuild scenario. -/
theorem claim_C1_amended_witness :
    stC1.owner_when_built ≠ some stC1.owner ∧
    ((_execute_plan_locally bpC1 stC1 argsC1 [200] "B").1.readable_plan).length
      = stC1.readable_plan.length + (bpC1.traceOf (tensorIds argsC1)).length :=
  ⟨by decide, claim_C1_amended bpC1 stC1 argsC1 [200] "B" (by decide)⟩

end PlanSpec
